import Mathlib

/-!
Verification development for container-inspector.

The repository's code under `src/` is the CLI module `container_inspector/cli.py`.
Its effectful behaviour (temp-dir allocation, tarball extraction, per-layer
extraction, echoing to stdout, the final rootfs rebuild) is embedded as pure
functions that return an explicit event trace together with their result.
External collaborators the CLI calls (`image.Image.get_images_from_dir`,
`image.Image.get_images_from_tarball`, `image.flatten_images`,
`dockerfile.collect_dockerfiles`, `dockerfile.flatten_dockerfiles`,
`json.dumps`) are oracles: their outputs are fields of the input world.

The rootfs squash algorithm (`rootfs.rebuild_rootfs`) and the layer store are
not in `src/`; they are modelled from the spec, with doc comments saying so.
-/

set_option autoImplicit false

namespace ContainerInspector

/-- One layer of an image, as the CLI sees it: an identifier used when the
layer is extracted. -/
structure Layer where
  layer_id : String
  deriving DecidableEq, Repr

/-- One container image, as the CLI sees it: an ordered list of layers. -/
structure Image where
  layers : List Layer
  deriving DecidableEq, Repr

/-- One flattened record, a dict rendered as ordered key/value pairs. -/
abbrev Row : Type := List (String × String)

/-- Observable side effects of the CLI functions.  `removeTemp` is in the
alphabet so that "never deletes" is expressible; no function below emits it,
matching the absence of any deletion call in `cli.py`. -/
inductive Event where
  | mkdtemp (d : String)
  | extractTarball (dest : String)
  | extractLayer (layerId : String) (dest : String)
  | rebuildRootfs (target : String)
  | removeTemp (d : String)
  | echo (s : String)
  | stdoutLine (s : String)
  | scanImagesDir
  | scanDockerfiles
  deriving DecidableEq, Repr

/-- Whether an event writes to the filesystem. -/
def Event.isWrite : Event → Bool
  | Event.mkdtemp _ => true
  | Event.extractTarball _ => true
  | Event.extractLayer _ _ => true
  | Event.rebuildRootfs _ => true
  | Event.removeTemp _ => true
  | Event.echo _ => false
  | Event.stdoutLine _ => false
  | Event.scanImagesDir => false
  | Event.scanDockerfiles => false

/-- Whether an event deletes a temporary directory. -/
def Event.isRemove : Event → Bool
  | Event.removeTemp _ => true
  | _ => false

/-- The environment a CLI image command runs in.  `isdirRaw` is the value of
`os.path.isdir(image_path)` on the raw argument; `dirImages` and `tarImages`
are the oracle results of `Image.get_images_from_dir` and
`Image.get_images_from_tarball`; `tmpdir` is the path `tempfile.mkdtemp()`
would return; `flatRows` is the oracle result of `image.flatten_images`;
`jsonText` is the oracle result of `json.dumps` on the image dicts. -/
structure World where
  isdirRaw : Bool
  dirImages : List Image
  tarImages : List Image
  tmpdir : String
  flatRows : List Row
  jsonText : String
  deriving DecidableEq, Repr

/-- Embedding of `cli.get_images_from_dir_or_tarball`: if the path is a
directory, scan it for images; otherwise treat it as a tarball, allocate a
temp dir when the caller gave none, extract the tarball, extract every layer
of every discovered image into the extraction dir, and echo the extraction
location unless quiet. -/
def get_images_from_dir_or_tarball (w : World) (extract_to : Option String)
    (quiet : Bool) : List Image × List Event :=
  if w.isdirRaw then
    (w.dirImages, [Event.scanImagesDir])
  else
    let dest := extract_to.getD w.tmpdir
    let allocEvs := match extract_to with
      | some _ => []
      | none => [Event.mkdtemp w.tmpdir]
    let imgs := w.tarImages
    let layerEvs :=
      (imgs.map (fun img => img.layers.map
        (fun l => Event.extractLayer l.layer_id dest))).flatten
    let echoEvs :=
      if quiet then []
      else [Event.echo ("Extracting image tarball to: " ++ dest)]
    (imgs, allocEvs ++ [Event.extractTarball dest] ++ layerEvs ++ echoEvs)

/-- Embedding of `cli._container_inspector_squash`: discover images (no
`extract_to`, not quiet), assert exactly one, then rebuild the rootfs into
the target directory.  The Python `assert` is the `Except.error` branch. -/
def _container_inspector_squash (w : World) (extract_directory : String) :
    List Event × Except String Unit :=
  let r := get_images_from_dir_or_tarball w none false
  if r.1.length = 1 then
    (r.2 ++ [Event.rebuildRootfs extract_directory], Except.ok ())
  else
    (r.2, Except.error "Can only squash one image at a time")

/-- The value `cli._container_inspector` returns: the JSON dump string, the
in-memory `StringIO` buffer object (carrying the lines written into it and
whether it was closed), or Python `None`. -/
inductive InspectResult where
  | jsonStr (s : String)
  | bufferObj (lines : List String) (closed : Bool)
  | noneRes
  deriving DecidableEq, Repr

/-- CSV header line: the keys of the first row, comma-separated, as
`DictWriter.writeheader` emits. -/
def csvHeader (keys : List String) : String :=
  String.intercalate "," keys

/-- One CSV data line: the row's values in key order, as `DictWriter.writerow`
emits. -/
def csvRow (keys : List String) (r : Row) : String :=
  String.intercalate "," (keys.map (fun k => (r.lookup k).getD ""))

/-- The lines the CSV writer produces for a non-empty flattened list. -/
def csvLines (r : Row) (rs : List Row) : List String :=
  csvHeader (r.map Prod.fst) ::
    (r :: rs).map (csvRow (r.map Prod.fst))

/-- Embedding of `cli._container_inspector`: discover images; without `--csv`
return the JSON dump string; with `--csv` write the header and rows into an
in-memory `StringIO`, close it, and return the buffer object itself — or
return `None` when the flattened list is empty.  The CSV text is never sent
to stdout by this function. -/
def _container_inspector (w : World) (extract_to : Option String)
    (csv : Bool) : List Event × InspectResult :=
  let r := get_images_from_dir_or_tarball w extract_to false
  if csv = false then
    (r.2, InspectResult.jsonStr w.jsonText)
  else
    match w.flatRows with
    | [] => (r.2, InspectResult.noneRes)
    | row :: rows => (r.2, InspectResult.bufferObj (csvLines row rows) true)

/-- What `click.echo(results)` writes: `str()` of the returned value.  For a
string it is the string; for a `StringIO` object it is the object's repr, not
its contents; for `None`, `click.echo` writes an empty message. -/
def strOfInspect : InspectResult → String
  | InspectResult.jsonStr s => s
  | InspectResult.bufferObj _ _ => "<_io.StringIO object>"
  | InspectResult.noneRes => ""

/-- Embedding of the `cli.container_inspector` command body: compute the
result and `click.echo` it.  Returns the trace and the string echoed to
stdout.  Every path returns normally, so the process exit status is zero. -/
def container_inspector (w : World) (extract_to : Option String)
    (csv : Bool) : List Event × String :=
  let r := _container_inspector w extract_to csv
  (r.1 ++ [Event.echo (strOfInspect r.2)], strOfInspect r.2)

/-- The environment of the dockerfile command.  `hasDockerfiles` is whether
`dockerfile.collect_dockerfiles` found anything; `dfJsonText` is the oracle
result of `json.dumps`; `dfFlat` is the oracle result of
`dockerfile.flatten_dockerfiles`. -/
structure DfWorld where
  hasDockerfiles : Bool
  dfJsonText : String
  dfFlat : List Row
  deriving DecidableEq, Repr

/-- Embedding of `cli._container_inspector_dockerfile`: assert that at least
one of `--json`/`--csv` is set (before any scanning), scan for dockerfiles,
return early when none are found, echo the JSON dump under `--json`, and
write CSV header and rows to `sys.stdout` under `--csv`.  Indexing `[0]` on
an empty flattened list raises, embedded as the `IndexError` branch. -/
def _container_inspector_dockerfile (w : DfWorld) (json csv : Bool) :
    List Event × Except String Unit :=
  if json = false ∧ csv = false then
    ([], Except.error "At least one of --json or --csv is required.")
  else
    let scanEvs := [Event.scanDockerfiles]
    if w.hasDockerfiles = false then
      (scanEvs, Except.ok ())
    else
      let jsonEvs := if json then [Event.echo w.dfJsonText] else []
      if csv then
        match w.dfFlat with
        | [] => (scanEvs ++ jsonEvs,
                 Except.error "IndexError: list index out of range")
        | row :: rows =>
          let csvEvs := (csvLines row rows).map Event.stdoutLine
          (scanEvs ++ jsonEvs ++ csvEvs, Except.ok ())
      else
        (scanEvs ++ jsonEvs, Except.ok ())

/-- Process exit status of the dockerfile command: an uncaught exception
exits non-zero, a normal return exits zero. -/
def dockerfile_cmd_exit (w : DfWorld) (json csv : Bool) : Nat :=
  match (_container_inspector_dockerfile w json csv).2 with
  | Except.ok _ => 0
  | Except.error _ => 1

/-- Process exit status of `container_inspector`: the embedded body always
returns normally, so the command exits zero. -/
def container_inspector_exit (w : World) (extract_to : Option String)
    (csv : Bool) : Nat :=
  let r := container_inspector w extract_to csv
  (fun _ => 0) r

/-- Modelled from the spec: the LayerStore component (§4.3) is not in `src/`.
Its state is the content-addressed cache keyed by `diff_identifier`, a count
of archive reads performed, and a fresh-name counter for extraction roots. -/
structure LayerStore where
  cache : List (String × String)
  reads : Nat
  fresh : Nat
  deriving DecidableEq, Repr

/-- The extraction root allocated for the `n`-th first-time materialization. -/
def rootName (n : Nat) : String :=
  "root" ++ toString n

/-- Modelled from the spec: `LayerStore.materialize(layer) -> extraction_root`
(§4.3), not in `src/`.  A cache hit on `diff_identifier` returns the
already-computed root without reading the archive; a miss reads the archive
once, extracts to a fresh root, and records it in the cache. -/
def materialize (s : LayerStore) (diff_identifier : String) :
    String × LayerStore :=
  match s.cache.lookup diff_identifier with
  | some root => (root, s)
  | none =>
    let root := rootName s.fresh
    (root,
     { cache := (diff_identifier, root) :: s.cache,
       reads := s.reads + 1,
       fresh := s.fresh + 1 })

/-- One entry of a materialized layer: a relative path (as components, the
last component being the entry name) and its content. -/
structure Entry where
  path : List String
  content : String
  deriving DecidableEq, Repr

/-- Failure of a squash. -/
inductive SquashError where
  | pathEscape (p : List String)
  deriving DecidableEq, Repr

/-- Normalization worker: resolve `.`, empty and `..` components against an
accumulated stack of kept components; a `..` with an empty stack escapes the
root and yields `none`. -/
def normalizeFrom (stack : List String) : List String → Option (List String)
  | [] => some stack.reverse
  | c :: rest =>
    if c = "." ∨ c = "" then normalizeFrom stack rest
    else if c = ".." then
      match stack with
      | [] => none
      | _ :: s => normalizeFrom s rest
    else normalizeFrom (c :: stack) rest

/-- Modelled from the spec: entry paths "are normalized and validated to
remain under `target_directory`" (§4.4); `none` means the path escapes the
target root. -/
def normalize (p : List String) : Option (List String) :=
  normalizeFrom [] p

/-- Split a non-empty path into its directory and its entry name. -/
def splitLast : List String → Option (List String × String)
  | [] => none
  | [a] => some ([], a)
  | a :: b :: rest =>
    match splitLast (b :: rest) with
    | some (d, n) => some (a :: d, n)
    | none => none

/-- The opaque-directory marker name of §6. -/
def isOpqMarker (n : String) : Bool :=
  n = ".wh..wh..opq"

/-- For a single-file whiteout name `.wh.<basename>` of §6, the basename it
deletes; `none` for the directory marker and for ordinary names. -/
def whiteoutVictim (n : String) : Option String :=
  if isOpqMarker n then none
  else if n.take 4 = ".wh." then some (n.drop 4)
  else none

/-- The accumulated target-directory state: an ordered association of
normalized relative paths to contents. -/
abbrev Target : Type := List (List String × String)

/-- Remove the entry at exactly path `p`, a no-op when absent. -/
def removePath (p : List String) (t : Target) : Target :=
  t.filter (fun e => e.1 ≠ p)

/-- `listPre d q`: `d` is a (component-wise) leading part of `q`. -/
def listPre : List String → List String → Bool
  | [], _ => true
  | _ :: _, [] => false
  | a :: as, b :: bs => a = b && listPre as bs

/-- `isUnder d q`: path `q` lies strictly below directory `d`. -/
def isUnder (d q : List String) : Bool :=
  listPre d q && decide (d.length < q.length)

/-- Remove everything strictly below directory `d`. -/
def removeUnder (d : List String) (t : Target) : Target :=
  t.filter (fun e => !(isUnder d e.1))

/-- Write content at path `p`, replacing any earlier entry at `p`
(last-writer-wins). -/
def writeFile (p : List String) (c : String) (t : Target) : Target :=
  removePath p t ++ [(p, c)]

/-- Modelled from the spec: the marker pass of one layer (§4.4 rules 2-3).
Each entry's path is normalized, rejecting escapes with `PathEscapeError`;
an opaque-directory marker in `d` discards all prior content under `d`, and a
single-file whiteout `.wh.<b>` in `d` removes `d/<b>` (a no-op when absent);
non-marker entries are left to the copy pass. -/
def applyMarker (t : Target) (e : Entry) : Except SquashError Target :=
  match normalize e.path with
  | none => Except.error (SquashError.pathEscape e.path)
  | some p =>
    match splitLast p with
    | none => Except.ok t
    | some (d, name) =>
      if isOpqMarker name then Except.ok (removeUnder d t)
      else
        match whiteoutVictim name with
        | some victim => Except.ok (removePath (d ++ [victim]) t)
        | none => Except.ok t

/-- Modelled from the spec: the copy pass of one layer (§4.4 rule 4).  Marker
entries are not materialized into the target; every other entry is copied to
its normalized path, overwriting earlier layers' entry at the same path. -/
def applyCopy (t : Target) (e : Entry) : Except SquashError Target :=
  match normalize e.path with
  | none => Except.error (SquashError.pathEscape e.path)
  | some p =>
    match splitLast p with
    | none => Except.ok t
    | some (_, name) =>
      if isOpqMarker name then Except.ok t
      else
        match whiteoutVictim name with
        | some _ => Except.ok t
        | none => Except.ok (writeFile p e.content t)

/-- Fold an entry action over a layer's entries, aborting on the first
error. -/
def foldEntries (f : Target → Entry → Except SquashError Target) :
    Target → List Entry → Except SquashError Target
  | t, [] => Except.ok t
  | t, e :: es =>
    match f t e with
    | Except.error err => Except.error err
    | Except.ok t2 => foldEntries f t2 es

/-- Modelled from the spec: applying one layer (§4.4): whiteout and opaque
markers are applied against the content accumulated from prior layers before
this layer's remaining content is copied in. -/
def apply_layer (t : Target) (l : List Entry) : Except SquashError Target :=
  match foldEntries applyMarker t l with
  | Except.error err => Except.error err
  | Except.ok t2 => foldEntries applyCopy t2 l

/-- Apply layers strictly in list order, aborting the whole squash on the
first failing layer. -/
def squashLayers : Target → List (List Entry) → Except SquashError Target
  | t, [] => Except.ok t
  | t, l :: ls =>
    match apply_layer t l with
    | Except.error err => Except.error err
    | Except.ok t2 => squashLayers t2 ls

/-- Modelled from the spec: `rootfs.rebuild_rootfs` / `squash(image,
target_directory)` (§4.4) is not in `src/`.  Starting from an empty target,
the image's materialized layers are merged in their declared order. -/
def rebuild_rootfs (layers : List (List Entry)) : Except SquashError Target :=
  squashLayers [] layers

/-- A path component that survives normalization: not a traversal, current-dir
or empty component. -/
def cleanComp (c : String) : Bool :=
  !(c = "..") && !(c = ".") && !(c = "")

/-- A normalized path: every component is clean, so the path stays under the
target root. -/
def cleanPath (p : List String) : Bool :=
  p.all cleanComp

/-- A target whose every entry sits at a clean path, hence under the target
root. -/
def cleanTarget (t : Target) : Prop :=
  ∀ pe ∈ t, ∀ c ∈ pe.1, cleanComp c = true

/-- Every event a discovery run can emit is a scan, a temp-dir allocation, a
tarball extraction, a layer extraction, or an echo. -/
theorem discovery_event_shapes (w : World) (et : Option String) (q : Bool) :
    ∀ e ∈ (get_images_from_dir_or_tarball w et q).2,
      e = Event.scanImagesDir ∨ e = Event.mkdtemp w.tmpdir
      ∨ e = Event.extractTarball (et.getD w.tmpdir)
      ∨ (∃ lid, e = Event.extractLayer lid (et.getD w.tmpdir))
      ∨ ∃ s, e = Event.echo s := by
  intro e he
  unfold get_images_from_dir_or_tarball at he
  by_cases hd : w.isdirRaw
  · simp [hd] at he
    exact Or.inl he
  · rcases et with _ | dest <;> by_cases hq : q <;>
      simp [hd, hq, List.mem_append, List.mem_flatten, List.mem_map] at he <;>
      aesop

/-- The trace of `_container_inspector` is exactly the discovery trace: the
CSV text is only ever written into the in-memory buffer. -/
theorem inspector_trace_eq_discovery (w : World) (et : Option String)
    (csv : Bool) :
    (_container_inspector w et csv).1 =
      (get_images_from_dir_or_tarball w et false).2 := by
  unfold _container_inspector
  by_cases hc : csv = false
  · simp [hc]
  · rcases hf : w.flatRows with _ | ⟨r, rs⟩ <;> simp [hc, hf]

/-- Every event of the dockerfile command is a scan, an echo or a stdout
line. -/
theorem dockerfile_event_shapes (w : DfWorld) (json csv : Bool) :
    ∀ e ∈ (_container_inspector_dockerfile w json csv).1,
      e = Event.scanDockerfiles ∨ (∃ s, e = Event.echo s)
      ∨ ∃ s, e = Event.stdoutLine s := by
  intro e he
  by_cases hflags : json = false ∧ csv = false
  · simp [_container_inspector_dockerfile, hflags] at he
  · by_cases hdf : w.hasDockerfiles = false
    · simp [_container_inspector_dockerfile, hflags, hdf] at he
      exact Or.inl he
    · by_cases hc : csv = true
      · rcases hf : w.dfFlat with _ | ⟨r, rs⟩ <;> by_cases hj : json = true <;>
          simp [_container_inspector_dockerfile, hflags, hdf, hc, hf, hj,
            List.mem_append, List.mem_map] at he <;> aesop
      · by_cases hj : json = true <;>
          · simp [_container_inspector_dockerfile, hflags, hdf, hc, hj] at he
            try aesop

/-- Claim C2: squash applies layers in declared list order and is
order-dependent: with layer A creating file `f` and layer B whose whiteout
`.wh.f` deletes it, squashing [A, B] yields a target without `f`, while
squashing [B, A] yields a target in which `f` is present. -/
theorem squash_order_dependent :
    rebuild_rootfs [[Entry.mk ["f"] "v1"], [Entry.mk [".wh.f"] ""]] =
      Except.ok []
    ∧ rebuild_rootfs [[Entry.mk [".wh.f"] ""], [Entry.mk ["f"] "v1"]] =
      Except.ok [(["f"], "v1")]
    ∧ (([] : Target).lookup ["f"] = none
       ∧ ([(["f"], "v1")] : Target).lookup ["f"] = some "v1") := by
  refine ⟨rfl, rfl, rfl, rfl⟩

/-- Claim C4: an `.wh..wh..opq` entry in directory `d` discards all content
accumulated under `d` from prior layers before the layer's other entries for
`d` are applied: layer A creates `d/x` and `d/y`, layer B carries the opaque
marker for `d` plus `d/z`, and the squashed target contains only `d/z`
under `d`. -/
theorem squash_opq_resets_directory :
    rebuild_rootfs
      [[Entry.mk ["d", "x"] "x", Entry.mk ["d", "y"] "y"],
       [Entry.mk ["d", ".wh..wh..opq"] "", Entry.mk ["d", "z"] "z"]] =
      Except.ok [(["d", "z"], "z")]
    ∧ ([(["d", "z"], "z")] : Target).filter (fun e => isUnder ["d"] e.1) =
      [(["d", "z"], "z")] := by
  refine ⟨rfl, rfl⟩

/-- Claim C10: the dockerfile-listing operation invoked with neither the JSON
flag nor the CSV flag set fails at once with the assertion error, with an
empty trace: no directory scanning and no output happen first. -/
theorem dockerfile_requires_format_flag (w : DfWorld) :
    _container_inspector_dockerfile w false false =
      ([], Except.error "At least one of --json or --csv is required.") := by
  simp [_container_inspector_dockerfile]

/-- Claim C8 (code bug): with `--csv` and one flattened image record, the
command does not print the tabular rows: the rows end up inside the closed
in-memory buffer the helper returns, and `click.echo` prints the `str()` of
that buffer object — not the header line plus CSV row the docstring
promises. -/
theorem csv_rows_not_printed :
    (container_inspector
        (World.mk true [Image.mk [Layer.mk "l1"]] [] "/tmp/u"
          [[("name", "img1"), ("layer", "lay1")]] "[]") none true).2 =
      "<_io.StringIO object>"
    ∧ (_container_inspector
        (World.mk true [Image.mk [Layer.mk "l1"]] [] "/tmp/u"
          [[("name", "img1"), ("layer", "lay1")]] "[]") none true).2 =
      InspectResult.bufferObj ["name,layer", "img1,lay1"] true
    ∧ (container_inspector
        (World.mk true [Image.mk [Layer.mk "l1"]] [] "/tmp/u"
          [[("name", "img1"), ("layer", "lay1")]] "[]") none true).2 ≠
      "name,layer" ++ "\n" ++ "img1,lay1" := by
  refine ⟨rfl, rfl, by decide⟩

/-- Claim C1 counterexample: on a tarball input in which discovery finds two
images, the squash operation does reject with the assertion error, but it has
already performed filesystem writes (temp-dir creation, tarball extraction,
layer extraction) during discovery — so "performs no filesystem writes" is
false as stated for every input path. -/
theorem squash_nonsingle_writes_counterexample :
    (get_images_from_dir_or_tarball
        (World.mk false [] [Image.mk [Layer.mk "l1"], Image.mk [Layer.mk "l2"]]
          "/tmp/t" [] "") none false).1.length ≠ 1
    ∧ (_container_inspector_squash
        (World.mk false [] [Image.mk [Layer.mk "l1"], Image.mk [Layer.mk "l2"]]
          "/tmp/t" [] "") "/target").2 =
      Except.error "Can only squash one image at a time"
    ∧ ((_container_inspector_squash
        (World.mk false [] [Image.mk [Layer.mk "l1"], Image.mk [Layer.mk "l2"]]
          "/tmp/t" [] "") "/target").1.any Event.isWrite) = true := by
  refine ⟨by decide, rfl, rfl⟩

/-- Claim C7 counterexample: a dockerfile listing over a directory with no
dockerfiles and `--csv`, and an image listing over a path with no images and
`--csv`, both yield zero tabular rows yet exit with status zero (the
dockerfile command returns early; the image command echoes the empty `None`
message) — not the non-zero status the claim requires. -/
theorem zero_rows_exit_counterexample :
    dockerfile_cmd_exit (DfWorld.mk false "" []) false true = 0
    ∧ (_container_inspector_dockerfile (DfWorld.mk false "" []) false true).1 =
      [Event.scanDockerfiles]
    ∧ container_inspector_exit (World.mk true [] [] "/tmp/t7" [] "[]") none true = 0
    ∧ (container_inspector (World.mk true [] [] "/tmp/t7" [] "[]") none true).2 =
      "" := by
  refine ⟨rfl, rfl, rfl, rfl⟩

/-- Claim C9 counterexample: a listing run on a tarball with no extraction
directory allocates a temporary directory (`mkdtemp`) and runs to completion,
yet its full trace contains no deletion of that directory — the CLI never
releases auto-allocated temporary directories. -/
theorem tmpdir_never_removed_counterexample :
    Event.mkdtemp "/tmp/t9" ∈
      (container_inspector
        (World.mk false [] [Image.mk [Layer.mk "lz"]] "/tmp/t9" [] "[]")
        none false).1
    ∧ ((container_inspector
        (World.mk false [] [Image.mk [Layer.mk "lz"]] "/tmp/t9" [] "[]")
        none false).1.all (fun e => !(e.isRemove))) = true := by
  refine ⟨by decide, rfl⟩

/-- Claim C5: LayerStore materialization is idempotent: starting from a store
in which `diff_identifier` is uncached, two successive calls return the same
extraction root, the second call leaves the store untouched (no
re-extraction), and exactly one archive read is performed in total. -/
theorem materialize_idempotent (s : LayerStore) (d : String)
    (h : s.cache.lookup d = none) :
    (materialize s d).1 = (materialize (materialize s d).2 d).1
    ∧ (materialize (materialize s d).2 d).2 = (materialize s d).2
    ∧ (materialize (materialize s d).2 d).2.reads = s.reads + 1 := by
  simp [materialize, h, List.lookup]

/-- Witness for C5: the idempotence theorem applied to the empty store and
the identifier `sha1`. -/
theorem materialize_idempotent_witness :
    ((LayerStore.mk [] 0 0).cache.lookup "sha1" = none)
    ∧ ((materialize (LayerStore.mk [] 0 0) "sha1").1 =
        (materialize (materialize (LayerStore.mk [] 0 0) "sha1").2 "sha1").1
      ∧ (materialize (materialize (LayerStore.mk [] 0 0) "sha1").2 "sha1").2 =
        (materialize (LayerStore.mk [] 0 0) "sha1").2
      ∧ (materialize (materialize (LayerStore.mk [] 0 0) "sha1").2 "sha1").2.reads =
        (LayerStore.mk [] 0 0).reads + 1) :=
  ⟨rfl, materialize_idempotent (LayerStore.mk [] 0 0) "sha1" rfl⟩

/-- Claim C1 (amended): whenever discovery finds a number of images different
from one, the squash operation rejects with the assertion error before the
rootfs merge — no rebuild event appears in its trace — and for directory
inputs it performs no filesystem writes at all.  (For tarball inputs,
discovery itself extracts to disk before the rejection, which is why the
original "no filesystem writes" is amended.) -/
theorem squash_rejects_nonsingle (w : World) (extract_directory : String)
    (h : (get_images_from_dir_or_tarball w none false).1.length ≠ 1) :
    (_container_inspector_squash w extract_directory).2 =
      Except.error "Can only squash one image at a time"
    ∧ (∀ d, Event.rebuildRootfs d ∉
        (_container_inspector_squash w extract_directory).1)
    ∧ (w.isdirRaw = true →
        ∀ e ∈ (_container_inspector_squash w extract_directory).1,
          e.isWrite = false) := by
  have htr : (_container_inspector_squash w extract_directory).1 =
      (get_images_from_dir_or_tarball w none false).2 := by
    unfold _container_inspector_squash
    simp [h]
  refine ⟨by unfold _container_inspector_squash; simp [h], ?_, ?_⟩
  · intro d hmem
    rw [htr] at hmem
    rcases discovery_event_shapes w none false _ hmem with
      h1 | h1 | h1 | ⟨lid, h1⟩ | ⟨s, h1⟩ <;> exact absurd h1 (by simp)
  · intro hd e hmem
    rw [htr] at hmem
    have : get_images_from_dir_or_tarball w none false =
        (w.dirImages, [Event.scanImagesDir]) := by
      simp [get_images_from_dir_or_tarball, hd]
    rw [this] at hmem
    simp at hmem
    simp [hmem, Event.isWrite]

/-- Witness for C1: the rejection theorem applied to a directory world
holding two images. -/
theorem squash_rejects_nonsingle_witness :
    (get_images_from_dir_or_tarball
        (World.mk true [Image.mk [], Image.mk []] [] "/t" [] "")
        none false).1.length ≠ 1
    ∧ (_container_inspector_squash
        (World.mk true [Image.mk [], Image.mk []] [] "/t" [] "") "/target").2 =
      Except.error "Can only squash one image at a time"
    ∧ Event.rebuildRootfs "/target" ∉
      (_container_inspector_squash
        (World.mk true [Image.mk [], Image.mk []] [] "/t" [] "") "/target").1 := by
  have h : (get_images_from_dir_or_tarball
      (World.mk true [Image.mk [], Image.mk []] [] "/t" [] "")
      none false).1.length ≠ 1 := by decide
  exact ⟨h,
    (squash_rejects_nonsingle
      (World.mk true [Image.mk [], Image.mk []] [] "/t" [] "") "/target" h).1,
    (squash_rejects_nonsingle
      (World.mk true [Image.mk [], Image.mk []] [] "/t" [] "") "/target" h).2.1
      "/target"⟩

/-- Claim C6: image discovery dispatches on whether the input path is a
directory: a directory is scanned into `Image` entities with no write to the
filesystem, while a non-directory is treated as a tarball and extracted into
the caller-specified directory or a freshly allocated temporary one, after
which every layer of every discovered image is extracted there as well. -/
theorem get_images_dispatch (w : World) (extract_to : Option String)
    (quiet : Bool) :
    (w.isdirRaw = true →
      (get_images_from_dir_or_tarball w extract_to quiet).1 = w.dirImages
      ∧ ∀ e ∈ (get_images_from_dir_or_tarball w extract_to quiet).2,
          e.isWrite = false)
    ∧ (w.isdirRaw = false →
      (get_images_from_dir_or_tarball w extract_to quiet).1 = w.tarImages
      ∧ Event.extractTarball (extract_to.getD w.tmpdir) ∈
          (get_images_from_dir_or_tarball w extract_to quiet).2
      ∧ (∀ img ∈ (get_images_from_dir_or_tarball w extract_to quiet).1,
          ∀ l ∈ img.layers,
            Event.extractLayer l.layer_id (extract_to.getD w.tmpdir) ∈
              (get_images_from_dir_or_tarball w extract_to quiet).2)
      ∧ (extract_to = none →
          Event.mkdtemp w.tmpdir ∈
            (get_images_from_dir_or_tarball w extract_to quiet).2)) := by
  constructor
  · intro hd
    have : get_images_from_dir_or_tarball w extract_to quiet =
        (w.dirImages, [Event.scanImagesDir]) := by
      simp [get_images_from_dir_or_tarball, hd]
    rw [this]
    constructor
    · rfl
    · intro e hmem
      simp at hmem
      simp [hmem, Event.isWrite]
  · intro hd
    refine ⟨?_, ?_, ?_, ?_⟩
    · simp [get_images_from_dir_or_tarball, hd]
    · simp [get_images_from_dir_or_tarball, hd, List.mem_append]
    · intro img himg l hl
      have h1 : (get_images_from_dir_or_tarball w extract_to quiet).1 =
          w.tarImages := by
        simp [get_images_from_dir_or_tarball, hd]
      rw [h1] at himg
      simp [get_images_from_dir_or_tarball, hd, List.mem_append,
        List.mem_flatten, List.mem_map]
      aesop
    · intro hnone
      subst hnone
      simp [get_images_from_dir_or_tarball, hd]

/-- Witness for C6: the dispatch theorem applied to a directory world with
one image and to a tarball world with one two-layer image. -/
theorem get_images_dispatch_witness :
    (get_images_from_dir_or_tarball
        (World.mk true [Image.mk [Layer.mk "l1"]] [] "/t6" [] "")
        (some "/e") false).1 = [Image.mk [Layer.mk "l1"]]
    ∧ Event.extractTarball "/tmp/x" ∈
      (get_images_from_dir_or_tarball
        (World.mk false [] [Image.mk [Layer.mk "a", Layer.mk "b"]] "/tmp/x" [] "")
        none false).2
    ∧ Event.extractLayer "b" "/tmp/x" ∈
      (get_images_from_dir_or_tarball
        (World.mk false [] [Image.mk [Layer.mk "a", Layer.mk "b"]] "/tmp/x" [] "")
        none false).2
    ∧ Event.mkdtemp "/tmp/x" ∈
      (get_images_from_dir_or_tarball
        (World.mk false [] [Image.mk [Layer.mk "a", Layer.mk "b"]] "/tmp/x" [] "")
        none false).2 := by
  refine ⟨((get_images_dispatch
      (World.mk true [Image.mk [Layer.mk "l1"]] [] "/t6" [] "")
      (some "/e") false).1 rfl).1, ?_, ?_, ?_⟩
  · exact ((get_images_dispatch
      (World.mk false [] [Image.mk [Layer.mk "a", Layer.mk "b"]] "/tmp/x" [] "")
      none false).2 rfl).2.1
  · refine ((get_images_dispatch
      (World.mk false [] [Image.mk [Layer.mk "a", Layer.mk "b"]] "/tmp/x" [] "")
      none false).2 rfl).2.2.1 (Image.mk [Layer.mk "a", Layer.mk "b"]) ?_
      (Layer.mk "b") (by decide)
    have h1 := ((get_images_dispatch
      (World.mk false [] [Image.mk [Layer.mk "a", Layer.mk "b"]] "/tmp/x" [] "")
      none false).2 rfl).1
    rw [h1]
    decide
  · exact ((get_images_dispatch
      (World.mk false [] [Image.mk [Layer.mk "a", Layer.mk "b"]] "/tmp/x" [] "")
      none false).2 rfl).2.2.2 rfl

/-- Claim C7 (amended): when tabular output has zero rows, the listing
commands do not fail: the dockerfile command returns early after finding no
dockerfiles (exit status zero, no CSV lines on stdout), and the image command
returns `None`, whose echo prints an empty message, also exiting zero. -/
theorem zero_rows_exit_zero (w : World) (et : Option String) (dw : DfWorld)
    (json : Bool) (hflat : w.flatRows = [])
    (hdf : dw.hasDockerfiles = false) :
    container_inspector_exit w et true = 0
    ∧ (container_inspector w et true).2 = ""
    ∧ dockerfile_cmd_exit dw json true = 0
    ∧ ∀ s, Event.stdoutLine s ∉ (_container_inspector_dockerfile dw json true).1 := by
  have hres : (_container_inspector w et true).2 = InspectResult.noneRes := by
    unfold _container_inspector
    simp [hflat]
  refine ⟨rfl, ?_, ?_, ?_⟩
  · simp only [container_inspector]
    rw [hres]
    rfl
  · unfold dockerfile_cmd_exit _container_inspector_dockerfile
    simp [hdf]
  · intro s hmem
    rcases dockerfile_event_shapes dw json true _ hmem with
      h1 | ⟨s2, h1⟩ | ⟨s2, h1⟩
    · exact absurd h1 (by simp)
    · exact absurd h1 (by simp)
    · have : Event.stdoutLine s ∈ (_container_inspector_dockerfile dw json true).1 :=
        hmem
      unfold _container_inspector_dockerfile at this
      by_cases hflags : json = false ∧ true = false
      · simp [hflags] at this
      · simp [hflags, hdf] at this

/-- Witness for C7: the zero-rows theorem applied to an empty-directory
dockerfile world and an image world with no flattened rows. -/
theorem zero_rows_exit_zero_witness :
    ((World.mk true [] [] "/tmp/w7" [] "[]").flatRows = [])
    ∧ ((DfWorld.mk false "x" []).hasDockerfiles = false)
    ∧ container_inspector_exit (World.mk true [] [] "/tmp/w7" [] "[]") none true = 0
    ∧ (container_inspector (World.mk true [] [] "/tmp/w7" [] "[]") none true).2 = ""
    ∧ dockerfile_cmd_exit (DfWorld.mk false "x" []) true true = 0
    ∧ Event.stdoutLine "a,b" ∉
      (_container_inspector_dockerfile (DfWorld.mk false "x" []) true true).1 := by
  have h := zero_rows_exit_zero (World.mk true [] [] "/tmp/w7" [] "[]") none
    (DfWorld.mk false "x" []) true rfl rfl
  exact ⟨rfl, rfl, h.1, h.2.1, h.2.2.1, h.2.2.2 "a,b"⟩

/-- Claim C9 (amended): the temporary directory auto-allocated for tarball
extraction is retained, never deleted: no run of the listing command, the
squash helper or the dockerfile command ever emits a deletion event, while a
tarball run with no caller-specified extraction directory does allocate one
with `mkdtemp`. -/
theorem tmpdir_retained (w : World) (et : Option String) (csv : Bool)
    (target : String) (dw : DfWorld) (json dcsv : Bool) :
    (∀ e ∈ (container_inspector w et csv).1, e.isRemove = false)
    ∧ (∀ e ∈ (_container_inspector_squash w target).1, e.isRemove = false)
    ∧ (∀ e ∈ (_container_inspector_dockerfile dw json dcsv).1, e.isRemove = false)
    ∧ (w.isdirRaw = false → et = none →
        Event.mkdtemp w.tmpdir ∈ (container_inspector w et csv).1) := by
  have hdisc : ∀ e ∈ (get_images_from_dir_or_tarball w et false).2,
      e.isRemove = false := by
    intro e he
    rcases discovery_event_shapes w et false e he with
      h1 | h1 | h1 | ⟨lid, h1⟩ | ⟨s, h1⟩ <;> subst h1 <;> rfl
  have hdisc2 : ∀ e ∈ (get_images_from_dir_or_tarball w none false).2,
      e.isRemove = false := by
    intro e he
    rcases discovery_event_shapes w none false e he with
      h1 | h1 | h1 | ⟨lid, h1⟩ | ⟨s, h1⟩ <;> subst h1 <;> rfl
  refine ⟨?_, ?_, ?_, ?_⟩
  · intro e he
    unfold container_inspector at he
    rw [List.mem_append] at he
    rcases he with he | he
    · rw [inspector_trace_eq_discovery] at he
      exact hdisc e he
    · simp at he
      subst he
      rfl
  · intro e he
    unfold _container_inspector_squash at he
    by_cases h1 : (get_images_from_dir_or_tarball w none false).1.length = 1
    · simp [h1, List.mem_append] at he
      rcases he with he | he
      · exact hdisc2 e he
      · subst he
        rfl
    · simp [h1] at he
      exact hdisc2 e he
  · intro e he
    rcases dockerfile_event_shapes dw json dcsv e he with
      h1 | ⟨s, h1⟩ | ⟨s, h1⟩ <;> subst h1 <;> rfl
  · intro hd hnone
    subst hnone
    unfold container_inspector
    rw [List.mem_append, inspector_trace_eq_discovery]
    left
    simp [get_images_from_dir_or_tarball, hd]

/-- Witness for C9: the retention theorem applied to a tarball world: the
temp dir is allocated and a concrete event of the run is not a removal. -/
theorem tmpdir_retained_witness :
    Event.mkdtemp "/tmp/w9" ∈
      (container_inspector
        (World.mk false [] [Image.mk [Layer.mk "q"]] "/tmp/w9" [] "[]")
        none false).1
    ∧ (Event.mkdtemp "/tmp/w9").isRemove = false := by
  have h := tmpdir_retained
    (World.mk false [] [Image.mk [Layer.mk "q"]] "/tmp/w9" [] "[]")
    none false "/t" (DfWorld.mk false "" []) false false
  refine ⟨h.2.2.2 rfl rfl, ?_⟩
  exact h.1 (Event.mkdtemp "/tmp/w9") (h.2.2.2 rfl rfl)

/-- Components surviving normalization are clean, given a clean stack. -/
theorem normalizeFrom_clean :
    ∀ (l stack p : List String),
      (∀ c ∈ stack, cleanComp c = true) →
      normalizeFrom stack l = some p →
      ∀ c ∈ p, cleanComp c = true := by
  intro l
  induction l with
  | nil =>
    intro stack p hs hp c hc
    unfold normalizeFrom at hp
    injection hp with h2
    subst h2
    exact hs c (List.mem_reverse.mp hc)
  | cons a rest ih =>
    intro stack p hs hp c hc
    unfold normalizeFrom at hp
    by_cases h1 : a = "." ∨ a = ""
    · rw [if_pos h1] at hp
      exact ih stack p hs hp c hc
    · rw [if_neg h1] at hp
      by_cases h2 : a = ".."
      · rw [if_pos h2] at hp
        cases stack with
        | nil => exact absurd hp (by simp)
        | cons s ss =>
          exact ih ss p (fun d hd => hs d (List.mem_cons_of_mem s hd)) hp c hc
      · rw [if_neg h2] at hp
        refine ih (a :: stack) p ?_ hp c hc
        intro d hd
        rcases List.mem_cons.mp hd with rfl | hd2
        · have h1a : d ≠ "." := fun hx => h1 (Or.inl hx)
          have h1b : d ≠ "" := fun hx => h1 (Or.inr hx)
          simp [cleanComp, h2, h1a, h1b]
        · exact hs d hd2

/-- A successfully normalized path has only clean components. -/
theorem normalize_clean (q p : List String) (h : normalize q = some p) :
    ∀ c ∈ p, cleanComp c = true :=
  normalizeFrom_clean q [] p (by intro c hc; exact absurd hc (by simp)) h

/-- Removing entries keeps a target clean. -/
theorem cleanTarget_filter (t : Target) (f : List String × String → Bool)
    (h : cleanTarget t) : cleanTarget (t.filter f) :=
  fun pe hpe => h pe (List.mem_of_mem_filter hpe)

/-- Writing at a clean path keeps a target clean. -/
theorem cleanTarget_writeFile (p : List String) (c : String) (t : Target)
    (hp : ∀ d ∈ p, cleanComp d = true) (h : cleanTarget t) :
    cleanTarget (writeFile p c t) := by
  intro pe hpe
  unfold writeFile at hpe
  rcases List.mem_append.mp hpe with h1 | h1
  · exact cleanTarget_filter t _ h pe h1
  · simp at h1
    subst h1
    exact hp

/-- The marker pass keeps targets clean. -/
theorem applyMarker_clean (t t' : Target) (e : Entry)
    (ha : applyMarker t e = Except.ok t') (h : cleanTarget t) :
    cleanTarget t' := by
  unfold applyMarker at ha
  split at ha
  · exact absurd ha (by simp)
  · split at ha
    · injection ha with h2
      subst h2
      exact h
    · split at ha
      · injection ha with h2
        subst h2
        exact cleanTarget_filter t _ h
      · split at ha
        · injection ha with h2
          subst h2
          exact cleanTarget_filter t _ h
        · injection ha with h2
          subst h2
          exact h

/-- The copy pass keeps targets clean. -/
theorem applyCopy_clean (t t' : Target) (e : Entry)
    (ha : applyCopy t e = Except.ok t') (h : cleanTarget t) :
    cleanTarget t' := by
  unfold applyCopy at ha
  split at ha
  · exact absurd ha (by simp)
  next p hn =>
    split at ha
    · injection ha with h2
      subst h2
      exact h
    · split at ha
      · injection ha with h2
        subst h2
        exact h
      · split at ha
        · injection ha with h2
          subst h2
          exact h
        · injection ha with h2
          subst h2
          exact cleanTarget_writeFile p e.content t (normalize_clean e.path p hn) h

/-- Folding a clean-preserving entry action preserves cleanliness. -/
theorem foldEntries_clean (f : Target → Entry → Except SquashError Target)
    (hf : ∀ t t' e, f t e = Except.ok t' → cleanTarget t → cleanTarget t') :
    ∀ (l : List Entry) (t t' : Target),
      foldEntries f t l = Except.ok t' → cleanTarget t → cleanTarget t' := by
  intro l
  induction l with
  | nil =>
    intro t t' hfold h
    unfold foldEntries at hfold
    injection hfold with h2
    subst h2
    exact h
  | cons e es ih =>
    intro t t' hfold h
    unfold foldEntries at hfold
    split at hfold
    · exact absurd hfold (by simp)
    next t2 heq => exact ih t2 t' hfold (hf t t2 e heq h)

/-- Applying one layer preserves cleanliness. -/
theorem apply_layer_clean (t t' : Target) (l : List Entry)
    (ha : apply_layer t l = Except.ok t') (h : cleanTarget t) :
    cleanTarget t' := by
  unfold apply_layer at ha
  split at ha
  · exact absurd ha (by simp)
  next t2 heq =>
    exact foldEntries_clean applyCopy applyCopy_clean l t2 t' ha
      (foldEntries_clean applyMarker applyMarker_clean l t t2 heq h)

/-- Squashing layers preserves cleanliness. -/
theorem squashLayers_clean :
    ∀ (ls : List (List Entry)) (t t' : Target),
      squashLayers t ls = Except.ok t' → cleanTarget t → cleanTarget t' := by
  intro ls
  induction ls with
  | nil =>
    intro t t' hs h
    unfold squashLayers at hs
    injection hs with h2
    subst h2
    exact h
  | cons l rest ih =>
    intro t t' hs h
    unfold squashLayers at hs
    split at hs
    · exact absurd hs (by simp)
    next t2 heq => exact ih t2 t' hs (apply_layer_clean t t2 l heq h)

/-- The only error the marker pass raises is a path escape, for a path that
fails normalization. -/
theorem applyMarker_error (t : Target) (e : Entry) (err : SquashError)
    (h : applyMarker t e = Except.error err) :
    ∃ q, err = SquashError.pathEscape q ∧ normalize q = none := by
  unfold applyMarker at h
  split at h
  next hn =>
    injection h with h2
    exact ⟨e.path, h2.symm, hn⟩
  · split at h
    · exact absurd h (by simp)
    · split at h
      · exact absurd h (by simp)
      · split at h
        · exact absurd h (by simp)
        · exact absurd h (by simp)

/-- The only error the copy pass raises is a path escape, for a path that
fails normalization. -/
theorem applyCopy_error (t : Target) (e : Entry) (err : SquashError)
    (h : applyCopy t e = Except.error err) :
    ∃ q, err = SquashError.pathEscape q ∧ normalize q = none := by
  unfold applyCopy at h
  split at h
  next hn =>
    injection h with h2
    exact ⟨e.path, h2.symm, hn⟩
  · split at h
    · exact absurd h (by simp)
    · split at h
      · exact absurd h (by simp)
      · split at h
        · exact absurd h (by simp)
        · exact absurd h (by simp)

/-- Errors of an entry fold are path-escape errors of the passes. -/
theorem foldEntries_error (f : Target → Entry → Except SquashError Target)
    (hf : ∀ t e err, f t e = Except.error err →
      ∃ q, err = SquashError.pathEscape q ∧ normalize q = none) :
    ∀ (l : List Entry) (t : Target) (err : SquashError),
      foldEntries f t l = Except.error err →
      ∃ q, err = SquashError.pathEscape q ∧ normalize q = none := by
  intro l
  induction l with
  | nil =>
    intro t err h
    unfold foldEntries at h
    exact absurd h (by simp)
  | cons e es ih =>
    intro t err h
    unfold foldEntries at h
    split at h
    next err2 heq =>
      injection h with h2
      subst h2
      exact hf t e err2 heq
    next t2 heq => exact ih t2 err h

/-- Errors of one layer application are path-escape errors. -/
theorem apply_layer_error (t : Target) (l : List Entry) (err : SquashError)
    (h : apply_layer t l = Except.error err) :
    ∃ q, err = SquashError.pathEscape q ∧ normalize q = none := by
  unfold apply_layer at h
  split at h
  next err2 heq =>
    injection h with h2
    subst h2
    exact foldEntries_error applyMarker applyMarker_error l t err2 heq
  next t2 heq => exact foldEntries_error applyCopy applyCopy_error l t2 err h

/-- Errors of a whole squash are path-escape errors. -/
theorem squashLayers_error :
    ∀ (ls : List (List Entry)) (t : Target) (err : SquashError),
      squashLayers t ls = Except.error err →
      ∃ q, err = SquashError.pathEscape q ∧ normalize q = none := by
  intro ls
  induction ls with
  | nil =>
    intro t err h
    unfold squashLayers at h
    exact absurd h (by simp)
  | cons l rest ih =>
    intro t err h
    unfold squashLayers at h
    split at h
    next err2 heq =>
      injection h with h2
      subst h2
      exact apply_layer_error t l err2 heq
    next t2 heq => exact ih t2 err h

/-- A marker pass that succeeds normalized its entry's path. -/
theorem applyMarker_ok_normalizes (t t' : Target) (e : Entry)
    (h : applyMarker t e = Except.ok t') :
    ∃ p, normalize e.path = some p := by
  unfold applyMarker at h
  split at h
  · exact absurd h (by simp)
  next p hn => exact ⟨p, hn⟩

/-- A marker fold that succeeds normalized every entry's path. -/
theorem foldEntries_ok_normalizes :
    ∀ (l : List Entry) (t t' : Target),
      foldEntries applyMarker t l = Except.ok t' →
      ∀ e ∈ l, ∃ p, normalize e.path = some p := by
  intro l
  induction l with
  | nil =>
    intro t t' _ e he
    exact absurd he (by simp)
  | cons e0 es ih =>
    intro t t' h e he
    unfold foldEntries at h
    split at h
    · exact absurd h (by simp)
    next t2 heq =>
      rcases List.mem_cons.mp he with rfl | he2
      · exact applyMarker_ok_normalizes t t2 e heq
      · exact ih t2 t' h e he2

/-- A layer application that succeeds normalized every entry's path. -/
theorem apply_layer_ok_normalizes (t t' : Target) (l : List Entry)
    (h : apply_layer t l = Except.ok t') :
    ∀ e ∈ l, ∃ p, normalize e.path = some p := by
  unfold apply_layer at h
  split at h
  · exact absurd h (by simp)
  next t2 heq => exact foldEntries_ok_normalizes l t t2 heq

/-- A squash that succeeds normalized every entry's path of every layer. -/
theorem squashLayers_ok_normalizes :
    ∀ (ls : List (List Entry)) (t t' : Target),
      squashLayers t ls = Except.ok t' →
      ∀ l ∈ ls, ∀ e ∈ l, ∃ p, normalize e.path = some p := by
  intro ls
  induction ls with
  | nil =>
    intro t t' _ l hl
    exact absurd hl (by simp)
  | cons l0 rest ih =>
    intro t t' h l hl
    unfold squashLayers at h
    split at h
    · exact absurd h (by simp)
    next t2 heq =>
      rcases List.mem_cons.mp hl with rfl | hl2
      · exact apply_layer_ok_normalizes t t2 l heq
      · exact ih t2 t' h l hl2

/-- Claim C3: whenever some archive entry's normalized relative path escapes
the target root, the squash returns a `PathEscapeError` carrying an escaping
path — the whole squash for the image aborts with no target produced — and
every target a successful squash produces holds only entries at clean
normalized paths, so no entry outside the target root is ever written. -/
theorem squash_path_escape (layers : List (List Entry)) :
    ((∃ l ∈ layers, ∃ e ∈ l, normalize e.path = none) →
      ∃ q, rebuild_rootfs layers = Except.error (SquashError.pathEscape q)
        ∧ normalize q = none)
    ∧ (∀ t, rebuild_rootfs layers = Except.ok t →
        ∀ pe ∈ t, ∀ c ∈ pe.1, cleanComp c = true) := by
  constructor
  · rintro ⟨l, hl, e, he, hn⟩
    cases hr : rebuild_rootfs layers with
    | ok t =>
      obtain ⟨p, hp⟩ := squashLayers_ok_normalizes layers [] t hr l hl e he
      rw [hn] at hp
      exact absurd hp (by simp)
    | error err =>
      obtain ⟨q, rfl, hq⟩ := squashLayers_error layers [] err hr
      exact ⟨q, rfl, hq⟩
  · intro t hr pe hpe
    exact squashLayers_clean layers [] t hr
      (fun x hx => absurd hx (by simp)) pe hpe

/-- Witness for C3: the escape branch applied to a layer with a
parent-directory traversal entry, and the clean-target branch applied to a
one-file squash. -/
theorem squash_path_escape_witness :
    (∃ q, rebuild_rootfs [[Entry.mk ["a"] "1", Entry.mk ["..", "evil"] "2"]] =
        Except.error (SquashError.pathEscape q) ∧ normalize q = none)
    ∧ (∀ pe ∈ ([(["a"], "1")] : Target), ∀ c ∈ pe.1, cleanComp c = true) := by
  constructor
  · exact (squash_path_escape
      [[Entry.mk ["a"] "1", Entry.mk ["..", "evil"] "2"]]).1
      ⟨[Entry.mk ["a"] "1", Entry.mk ["..", "evil"] "2"], by simp,
       Entry.mk ["..", "evil"] "2", by simp, by decide⟩
  · exact (squash_path_escape [[Entry.mk ["a"] "1"]]).2 [(["a"], "1")] rfl

end ContainerInspector
